import Mathlib

/-
Shallow embedding of the persistent-configuration core of the
curator-helper bot:

  app/services/config_manager.py       (chat config store + defaults loader)
  app/services/user_group_link_service.py  (user-to-group link table)
  app/config.py                        (USER_GROUP_LINKS_SHELF_KEY)

Python dictionaries are modelled as association lists with pairwise
distinct keys (the invariant every real dict maintains); insertion
replaces the value in place when the key is present and appends
otherwise, exactly like CPython's insertion-order semantics.  The shelve
file is modelled as such a dictionary from string keys to override
records; I/O failure on open is modelled by an `Option` on the shelf
argument where the source catches the exception.  Setting values are
drawn from a small universe `PyVal` of Python scalars, which is all the
claims need (the values are opaque to every operation under study).
-/

/-- Universe of Python scalar values used for stored settings and for
dynamically typed identifier arguments.  Python's `bool` is a subclass of
`int`, which `pyToInt` reflects. -/
inductive PyVal : Type where
  | int (n : Int)
  | str (s : String)
  | bool (b : Bool)
  | none
deriving DecidableEq

/-- The integer a Python value denotes under `isinstance(v, int)`:
`True` and `False` are the integers 1 and 0. -/
def pyToInt : PyVal → Option Int
  | .int n => some n
  | .bool b => some (if b then 1 else 0)
  | _ => Option.none

/-- Embedding of Python's `isinstance(v, int)` check. -/
def isinstanceInt (v : PyVal) : Bool :=
  (pyToInt v).isSome

/-! ### Raw association-list operations (the carrier of the dict model) -/

def lookupL [DecidableEq κ] : List (κ × α) → κ → Option α
  | [], _ => Option.none
  | (k', v) :: rest, k => if k' = k then some v else lookupL rest k

def insertL [DecidableEq κ] : List (κ × α) → κ → α → List (κ × α)
  | [], k, v => [(k, v)]
  | (k', v') :: rest, k, v =>
      if k' = k then (k, v) :: rest else (k', v') :: insertL rest k v

def eraseL [DecidableEq κ] : List (κ × α) → κ → List (κ × α)
  | [], _ => []
  | (k', v') :: rest, k => if k' = k then rest else (k', v') :: eraseL rest k

theorem lookupL_insertL_self [DecidableEq κ] (l : List (κ × α)) (k : κ) (v : α) :
    lookupL (insertL l k v) k = some v := by
  induction l with
  | nil => simp [insertL, lookupL]
  | cons p rest ih =>
    obtain ⟨k', v'⟩ := p
    by_cases h : k' = k
    · simp [insertL, h, lookupL]
    · simp [insertL, h, lookupL, ih]

theorem lookupL_insertL_ne [DecidableEq κ] (l : List (κ × α)) (k k' : κ) (v : α)
    (hne : k' ≠ k) : lookupL (insertL l k v) k' = lookupL l k' := by
  have hne' : ¬k = k' := fun e => hne e.symm
  induction l with
  | nil => simp [insertL, lookupL, hne']
  | cons p rest ih =>
    obtain ⟨a, b⟩ := p
    by_cases h : a = k
    · subst h
      simp [insertL, lookupL, hne']
    · simp [insertL, h, lookupL, ih]

theorem lookupL_eq_none [DecidableEq κ] (l : List (κ × α)) (k : κ)
    (h : k ∉ l.map Prod.fst) : lookupL l k = Option.none := by
  induction l with
  | nil => rfl
  | cons p rest ih =>
    obtain ⟨a, b⟩ := p
    simp only [List.map_cons, List.mem_cons] at h
    push_neg at h
    have ha : ¬a = k := fun e => h.1 e.symm
    simp [lookupL, ha, ih h.2]

theorem not_mem_of_lookupL_eq_none [DecidableEq κ] (l : List (κ × α)) (k : κ)
    (h : lookupL l k = Option.none) : k ∉ l.map Prod.fst := by
  induction l with
  | nil => simp
  | cons p rest ih =>
    obtain ⟨a, b⟩ := p
    by_cases e : a = k
    · simp [lookupL, e] at h
    · simp only [lookupL, if_neg e] at h
      have : ¬k = a := fun x => e x.symm
      simp [List.mem_cons, this, ih h]

theorem keysL_insertL [DecidableEq κ] (l : List (κ × α)) (k : κ) (v : α) :
    (insertL l k v).map Prod.fst =
      if k ∈ l.map Prod.fst then l.map Prod.fst else l.map Prod.fst ++ [k] := by
  induction l with
  | nil => simp [insertL]
  | cons p rest ih =>
    obtain ⟨a, b⟩ := p
    by_cases h : a = k
    · subst h
      simp [insertL]
    · have h' : ¬k = a := fun e => h e.symm
      by_cases hm : k ∈ rest.map Prod.fst
      · simp [insertL, h, ih, hm, h']
      · simp [insertL, h, ih, hm, h']

theorem nodup_insertL [DecidableEq κ] (l : List (κ × α)) (k : κ) (v : α)
    (hnd : (l.map Prod.fst).Nodup) : ((insertL l k v).map Prod.fst).Nodup := by
  rw [keysL_insertL]
  by_cases hm : k ∈ l.map Prod.fst
  · simpa [hm] using hnd
  · simp only [hm, if_false]
    simp [List.nodup_append, hnd, hm]

theorem keysL_eraseL_sublist [DecidableEq κ] (l : List (κ × α)) (k : κ) :
    List.Sublist ((eraseL l k).map Prod.fst) (l.map Prod.fst) := by
  induction l with
  | nil => simp [eraseL]
  | cons p rest ih =>
    obtain ⟨a, b⟩ := p
    by_cases h : a = k
    · simp only [eraseL, if_pos h, List.map_cons]
      exact List.sublist_cons_self a (rest.map Prod.fst)
    · simp only [eraseL, if_neg h, List.map_cons]
      exact ih.cons₂ a

theorem nodup_eraseL [DecidableEq κ] (l : List (κ × α)) (k : κ)
    (hnd : (l.map Prod.fst).Nodup) : ((eraseL l k).map Prod.fst).Nodup :=
  (keysL_eraseL_sublist l k).nodup hnd

theorem lookupL_eraseL_self [DecidableEq κ] (l : List (κ × α)) (k : κ)
    (hnd : (l.map Prod.fst).Nodup) : lookupL (eraseL l k) k = Option.none := by
  induction l with
  | nil => rfl
  | cons p rest ih =>
    obtain ⟨a, b⟩ := p
    simp only [List.map_cons, List.nodup_cons] at hnd
    by_cases h : a = k
    · subst h
      simp only [eraseL, if_pos rfl]
      exact lookupL_eq_none rest a hnd.1
    · simp [eraseL, h, lookupL, ih hnd.2]

theorem eraseL_of_not_mem [DecidableEq κ] (l : List (κ × α)) (k : κ)
    (h : k ∉ l.map Prod.fst) : eraseL l k = l := by
  induction l with
  | nil => rfl
  | cons p rest ih =>
    obtain ⟨a, b⟩ := p
    simp only [List.map_cons, List.mem_cons] at h
    push_neg at h
    have ha : ¬a = k := fun e => h.1 e.symm
    simp [eraseL, ha, ih h.2]

/-! ### Python dictionaries: association lists with pairwise distinct keys -/

/-- Model of a Python dict: an association list whose keys are pairwise
distinct, as every real dict maintains. -/
def PyDict (κ α : Type) : Type :=
  {l : List (κ × α) // (l.map Prod.fst).Nodup}

instance [DecidableEq κ] [DecidableEq α] : DecidableEq (PyDict κ α) :=
  fun d e => decidable_of_iff (d.val = e.val) Subtype.ext_iff.symm

/-- The empty dict, Python's literal braces. -/
def PyDict.empty : PyDict κ α :=
  ⟨[], List.nodup_nil⟩

/-- Embedding of Python's subscript read with a default: d.get(k). -/
def PyDict.lookup [DecidableEq κ] (d : PyDict κ α) (k : κ) : Option α :=
  lookupL d.val k

/-- Embedding of Python's subscript assignment d[k] = v: replace in place
when the key is present, append otherwise. -/
def PyDict.insert [DecidableEq κ] (d : PyDict κ α) (k : κ) (v : α) : PyDict κ α :=
  ⟨insertL d.val k v, nodup_insertL d.val k v d.prop⟩

/-- Embedding of Python's del d[k] (also a no-op on an absent key, which
the call sites guard against themselves). -/
def PyDict.erase [DecidableEq κ] (d : PyDict κ α) (k : κ) : PyDict κ α :=
  ⟨eraseL d.val k, nodup_eraseL d.val k d.prop⟩

/-- Auxiliary recursion for d.update(e): fold e's items, in order, into d. -/
def PyDict.updGo [DecidableEq κ] (d : PyDict κ α) : List (κ × α) → PyDict κ α
  | [] => d
  | p :: rest => PyDict.updGo (d.insert p.1 p.2) rest

/-- Embedding of Python's d.update(e): insert every item of e into d in
e's iteration order, so e's values win on overlapping keys. -/
def PyDict.update [DecidableEq κ] (d e : PyDict κ α) : PyDict κ α :=
  PyDict.updGo d e.val

theorem PyDict.lookup_insert_self [DecidableEq κ] (d : PyDict κ α) (k : κ) (v : α) :
    (d.insert k v).lookup k = some v :=
  lookupL_insertL_self d.val k v

theorem PyDict.lookup_insert_ne [DecidableEq κ] (d : PyDict κ α) (k k' : κ) (v : α)
    (hne : k' ≠ k) : (d.insert k v).lookup k' = d.lookup k' :=
  lookupL_insertL_ne d.val k k' v hne

theorem PyDict.lookup_insert [DecidableEq κ] (d : PyDict κ α) (k k' : κ) (v : α) :
    (d.insert k v).lookup k' = if k' = k then some v else d.lookup k' := by
  by_cases h : k' = k
  · subst h
    simp [PyDict.lookup_insert_self]
  · simp [h, PyDict.lookup_insert_ne d k k' v h]

theorem PyDict.lookup_erase_self [DecidableEq κ] (d : PyDict κ α) (k : κ) :
    (d.erase k).lookup k = Option.none :=
  lookupL_eraseL_self d.val k d.prop

theorem PyDict.erase_of_lookup_none [DecidableEq κ] (d : PyDict κ α) (k : κ)
    (h : d.lookup k = Option.none) : d.erase k = d :=
  Subtype.ext (eraseL_of_not_mem d.val k (not_mem_of_lookupL_eq_none d.val k h))

theorem PyDict.lookup_empty [DecidableEq κ] (k : κ) :
    (PyDict.empty : PyDict κ α).lookup k = Option.none :=
  rfl

theorem PyDict.lookup_updGo [DecidableEq κ] (d : PyDict κ α) (l : List (κ × α))
    (hnd : (l.map Prod.fst).Nodup) (k : κ) :
    (PyDict.updGo d l).lookup k =
      match lookupL l k with
      | some v => some v
      | Option.none => d.lookup k := by
  induction l generalizing d with
  | nil => simp [PyDict.updGo, lookupL]
  | cons p rest ih =>
    obtain ⟨k', v'⟩ := p
    simp only [List.map_cons, List.nodup_cons] at hnd
    by_cases h : k' = k
    · subst h
      rw [PyDict.updGo, ih _ hnd.2]
      have hr : lookupL rest k' = Option.none := lookupL_eq_none rest k' hnd.1
      simp [lookupL, hr, PyDict.lookup_insert_self]
    · rw [PyDict.updGo, ih _ hnd.2]
      have h' : k ≠ k' := fun e => h e.symm
      simp only [lookupL, if_neg h]
      cases lookupL rest k with
      | none => simp [PyDict.lookup_insert_ne _ _ _ _ h']
      | some w => simp

theorem PyDict.lookup_update [DecidableEq κ] (d e : PyDict κ α) (k : κ) :
    (d.update e).lookup k =
      match e.lookup k with
      | some v => some v
      | Option.none => d.lookup k :=
  PyDict.lookup_updGo d e.val e.prop k

theorem PyDict.update_empty [DecidableEq κ] (d : PyDict κ α) :
    d.update PyDict.empty = d :=
  rfl

/-! ### Chat Config Store: app/services/config_manager.py -/

/-- An override record or the defaults mapping: setting name to value. -/
abbrev ConfigDict : Type := PyDict String PyVal

/-- The shelve file seen as a dict from string keys to override records. -/
abbrev ChatShelf : Type := PyDict String ConfigDict

/-- Embedding of get_chat_config (config_manager.py lines 62-94).  A shelf
argument of Option.none models the open call raising, which the source
catches and treats as an absent record; in both failure cases the
chat-specific overrides degrade to the empty dict.  The source then
returns defaults.copy() updated with the overrides.  The embedding is a
total function, reflecting that the source catches every exception and
always returns a dictionary. -/
def get_chat_config (defaults : ConfigDict) (shelf : Option ChatShelf)
    (chat_id : Int) : ConfigDict :=
  let chat_specific : ConfigDict :=
    match shelf with
    | Option.none => PyDict.empty
    | some s => (s.lookup (toString chat_id)).getD PyDict.empty
  PyDict.update defaults chat_specific

/-- Embedding of update_chat_config (config_manager.py lines 96-117) on the
success path: the record stored under str(chat_id) is replaced by
new_config wholesale, and True is returned. -/
def update_chat_config (shelf : ChatShelf) (chat_id : Int)
    (new_config : ConfigDict) : Bool × ChatShelf :=
  (true, shelf.insert (toString chat_id) new_config)

/-- Embedding of set_chat_setting (config_manager.py lines 119-143) on the
success path: shelf.get(str(chat_id), empty) is read, the single key is
assigned, and the modified record is stored back. -/
def set_chat_setting (shelf : ChatShelf) (chat_id : Int) (key : String)
    (value : PyVal) : Bool × ChatShelf :=
  let current := (shelf.lookup (toString chat_id)).getD PyDict.empty
  (true, shelf.insert (toString chat_id) (current.insert key value))

/-- Embedding of delete_chat_config (config_manager.py lines 145-168): the
source deletes the record when present and logs otherwise, returning True
on both branches; erase on an absent key is exactly that no-op. -/
def delete_chat_config (shelf : ChatShelf) (chat_id : Int) : Bool × ChatShelf :=
  (true, shelf.erase (toString chat_id))

/-! ### Chat-id enumeration: get_all_chat_ids (config_manager.py 170-196) -/

/-- The reserved shelf key of the user-group link table
(app/config.py line 68). -/
def USER_GROUP_LINKS_SHELF_KEY : String := "user_group_links"

/-- Embedding of Python's key.lstrip(dash): drop every leading minus sign. -/
def lstripMinus : List Char → List Char
  | [] => []
  | c :: rest => if c = '-' then lstripMinus rest else c :: rest

/-- Embedding of Python's str.isdigit for the ASCII strings shelve keys
are drawn from: nonempty and all decimal digits. -/
def isDigitsNonempty (l : List Char) : Bool :=
  !l.isEmpty && l.all Char.isDigit

/-- Decimal value of a digit string. -/
def digitsVal (l : List Char) : Nat :=
  l.foldl (fun acc c => 10 * acc + (c.toNat - Char.toNat '0')) 0

/-- Embedding of Python's int(s) on the strings reaching it in
get_all_chat_ids: an optional single sign followed by decimal digits
parses, anything else raises ValueError, modelled as Option.none. -/
def pyIntOfString (s : String) : Option Int :=
  match s.data with
  | [] => Option.none
  | c :: rest =>
    if c = '-' then
      if isDigitsNonempty rest then some (-(digitsVal rest : Int)) else Option.none
    else if c = '+' then
      if isDigitsNonempty rest then some ((digitsVal rest : Int)) else Option.none
    else
      if isDigitsNonempty (c :: rest) then some ((digitsVal (c :: rest) : Int))
      else Option.none

/-- One iteration of the key loop of get_all_chat_ids: append int(key)
when key.lstrip(dash).isdigit() and the int call succeeds (its ValueError
is caught and the key skipped); otherwise fall through the elif comparing
against the reserved link key, which also skips, as does the implicit
else. -/
def chatIdStep (acc : List Int) (key : String) : List Int :=
  if isDigitsNonempty (lstripMinus key.data) then
    match pyIntOfString key with
    | some n => acc ++ [n]
    | Option.none => acc
  else if key = USER_GROUP_LINKS_SHELF_KEY then acc
  else acc

/-- Embedding of get_all_chat_ids (config_manager.py lines 170-196),
abstracted over the list of top-level keys of the shelf. -/
def get_all_chat_ids (keys : List String) : List Int :=
  keys.foldl chatIdStep []

/-- The specification's reading of which keys are enumerated: a key that
parses as an integer, positive or negative — an optional single leading
minus sign followed by decimal digits — yields that integer, any other
key yields nothing. -/
def chatKeySpecParse (s : String) : Option Int :=
  match s.data with
  | [] => Option.none
  | c :: rest =>
    if c = '-' then
      if isDigitsNonempty rest then some (-(digitsVal rest : Int)) else Option.none
    else
      if isDigitsNonempty (c :: rest) then some ((digitsVal (c :: rest) : Int))
      else Option.none

/-! ### Default Settings Loader: _load_default_settings (lines 26-53) -/

/-- Outcome of the one attempt to open and parse the defaults file: ok
with the parsed mapping, or any of the caught failures (file absent,
malformed JSON, anything else). -/
inductive ReadOutcome : Type where
  | ok (d : ConfigDict)
  | err
deriving DecidableEq

/-- What the first call caches: the parsed mapping on success, the empty
fallback mapping on failure. -/
def loaderFirstResult : ReadOutcome → ConfigDict
  | .ok d => d
  | .err => PyDict.empty

/-- Embedding of one call to _load_default_settings: given the module
cache and the outcome the file read would have, return the call's result,
the new cache, and whether the file was actually read.  The cache is
consulted first (double-checked locking collapses to this in a sequential
model); only a cold cache reads the file, and a failed read caches the
empty dict. -/
def loadStep (cache : Option ConfigDict) (o : ReadOutcome) :
    ConfigDict × Option ConfigDict × Bool :=
  match cache with
  | some c => (c, some c, false)
  | Option.none => (loaderFirstResult o, some (loaderFirstResult o), true)

/-- A whole process life of loader calls: the list of results, the final
cache, and how many times the file was read. -/
def runLoader (cache : Option ConfigDict) :
    List ReadOutcome → List ConfigDict × Option ConfigDict × Nat
  | [] => ([], cache, 0)
  | o :: os =>
    let st := loadStep cache o
    let rest := runLoader st.2.1 os
    (st.1 :: rest.1, rest.2.1, (if st.2.2 then 1 else 0) + rest.2.2)

/-! ### User-Group Link Store: app/services/user_group_link_service.py -/

/-- The one reserved shelf entry: the whole user-to-group mapping. -/
abbrev LinkDict : Type := PyDict Int Int

/-- Embedding of set_user_group_link (lines 40-51) on the success path of
_save_links_dict: the isinstance checks reject non-integer identifiers
with False, otherwise the whole links dict is read, the one entry
assigned, and the dict written back. -/
def set_user_group_link (links : LinkDict) (user group : PyVal) :
    Bool × LinkDict :=
  match pyToInt user, pyToInt group with
  | some u, some g => (true, links.insert u g)
  | _, _ => (false, links)

/-- Embedding of get_group_id_for_user (lines 53-63): a non-integer user
id short-circuits to None; otherwise links.get(user_id).  The function
only reads: its type consumes the store without producing one. -/
def get_group_id_for_user (links : LinkDict) (user : PyVal) : Option Int :=
  match pyToInt user with
  | some u => links.lookup u
  | _ => Option.none

/-- Embedding of remove_user_group_link (lines 65-80): a non-integer user
id is rejected with False; a present entry is deleted and the dict saved
(True on the success path); an absent entry returns True without writing. -/
def remove_user_group_link (links : LinkDict) (user : PyVal) :
    Bool × LinkDict :=
  match pyToInt user with
  | some u =>
    if (links.lookup u).isSome then (true, links.erase u) else (true, links)
  | _ => (false, links)

/-! ### Lock discipline of the store operations

Each operation's body is abstracted to the sequence of lock and shelf
events it performs, read off the source line by line.  An event trace is
lock-wrapped when every shelf event happens while the process-wide lock
is held. -/

/-- Events a store operation performs, in program order. -/
inductive Ev : Type where
  | acquire
  | release
  | openShelf
  | closeShelf
  | readStore
  | writeStore
deriving DecidableEq

/-- Check, carrying the current lock depth, that every shelf event occurs
at positive depth. -/
def lockedAux : Nat → List Ev → Bool
  | _, [] => true
  | d, .acquire :: rest => lockedAux (d + 1) rest
  | d, .release :: rest => lockedAux (d - 1) rest
  | d, _ :: rest => decide (0 < d) && lockedAux d rest

/-- A trace is lock-wrapped when all its shelf accesses are under the
mutual-exclusion lock. -/
def lockWrapped (t : List Ev) : Bool :=
  lockedAux 0 t

/-- get_chat_config: with _shelf_lock, open, membership test and read,
close (config_manager.py lines 79-82). -/
def getChatConfigTrace : List Ev :=
  [.acquire, .openShelf, .readStore, .closeShelf, .release]

/-- update_chat_config: with _shelf_lock, open, assign the record, close
(config_manager.py lines 110-112). -/
def updateChatConfigTrace : List Ev :=
  [.acquire, .openShelf, .writeStore, .closeShelf, .release]

/-- set_chat_setting: with _shelf_lock, open, shelf.get, assign back,
close (config_manager.py lines 134-138). -/
def setChatSettingTrace : List Ev :=
  [.acquire, .openShelf, .readStore, .writeStore, .closeShelf, .release]

/-- delete_chat_config: with _shelf_lock, open, membership test, del,
close (config_manager.py lines 158-161). -/
def deleteChatConfigTrace : List Ev :=
  [.acquire, .openShelf, .readStore, .writeStore, .closeShelf, .release]

/-- set_user_group_link: _get_links_dict opens, reads and closes the
shelf, then _save_links_dict opens, writes and closes it again — no lock
is acquired anywhere in user_group_link_service.py (lines 19-51), and the
module cannot even see config_manager's module-private _shelf_lock. -/
def setUserGroupLinkTrace : List Ev :=
  [.openShelf, .readStore, .closeShelf, .openShelf, .writeStore, .closeShelf]

/-- remove_user_group_link: same unlocked read phase and, when the entry
exists, same unlocked write phase (lines 65-80). -/
def removeUserGroupLinkTrace : List Ev :=
  [.openShelf, .readStore, .closeShelf, .openShelf, .writeStore, .closeShelf]

/-- The save phase of set_user_group_link in isolation: the whole link
table is rewritten from the snapshot the read phase returned, with the
one entry assigned (lines 49-51 and 28-38). -/
def linkSavePhase (snapshot : LinkDict) (u g : Int) : LinkDict :=
  snapshot.insert u g

/-- Final store contents after two set_user_group_link calls, set(1, 10)
and set(2, 20), interleave on an initially empty store without any lock:
both read phases see the empty table before either write phase runs, so
the second save is computed from a stale snapshot and replaces the whole
table. -/
def unlockedInterleavedFinal : LinkDict :=
  let snapA : LinkDict := PyDict.empty
  let snapB : LinkDict := PyDict.empty
  let afterA := linkSavePhase snapA 1 10
  let afterB := linkSavePhase snapB 2 20
  let _ := afterA
  afterB

/-- Final store contents when the same two calls run whole, one after the
other, as mutual exclusion would force. -/
def lockedSequentialFinal : LinkDict :=
  (set_user_group_link
    (set_user_group_link PyDict.empty (.int 1) (.int 10)).2
    (.int 2) (.int 20)).2

/-! ### Helper lemmas for the chat-id enumeration -/

theorem lstripMinus_of_isDigitsNonempty (l : List Char)
    (h : isDigitsNonempty l = true) : lstripMinus l = l := by
  cases l with
  | nil => rfl
  | cons c rest =>
    simp only [isDigitsNonempty, List.isEmpty_cons, List.all_cons,
      Bool.and_eq_true, Bool.not_eq_true'] at h
    have hc : c ≠ '-' := by
      intro e
      subst e
      simp at h
    simp [lstripMinus, hc]

theorem chatIdStep_eq (acc : List Int) (key : String) :
    chatIdStep acc key = acc ++ (chatKeySpecParse key).toList := by
  unfold chatIdStep chatKeySpecParse
  cases hd : key.data with
  | nil => simp [lstripMinus, isDigitsNonempty]
  | cons c rest =>
    by_cases hc : c = '-'
    · subst hc
      simp only [lstripMinus, if_pos rfl]
      by_cases hr : isDigitsNonempty rest = true
      · rw [lstripMinus_of_isDigitsNonempty rest hr]
        simp [hr, pyIntOfString, hd]
      · simp only [Bool.not_eq_true] at hr
        have hnone : pyIntOfString key = Option.none := by
          simp [pyIntOfString, hd, hr]
        simp only [hnone, hr]
        by_cases hlift : isDigitsNonempty (lstripMinus rest) = true
        · simp [hlift]
        · simp only [Bool.not_eq_true] at hlift
          simp [hlift]
    · simp only [lstripMinus, if_neg hc]
      by_cases ha : isDigitsNonempty (c :: rest) = true
      · have hcd : c.isDigit = true := by
          simp only [isDigitsNonempty, List.all_cons, Bool.and_eq_true] at ha
          exact ha.2.1
        have hplus : c ≠ '+' := by
          intro e
          subst e
          simp [Char.isDigit] at hcd
        simp [ha, pyIntOfString, hd, hc, hplus]
      · simp only [Bool.not_eq_true] at ha
        simp [ha, hc]

theorem get_all_go (keys : List String) (acc : List Int) :
    keys.foldl chatIdStep acc = acc ++ keys.filterMap chatKeySpecParse := by
  induction keys generalizing acc with
  | nil => simp
  | cons k ks ih =>
    rw [List.foldl_cons, ih, chatIdStep_eq, List.filterMap_cons]
    cases chatKeySpecParse k with
    | none => simp
    | some n => simp

/-! ### Helper lemma for the defaults loader -/

theorem runLoader_cached (os : List ReadOutcome) (c : ConfigDict) :
    runLoader (some c) os = (List.replicate os.length c, some c, 0) := by
  induction os with
  | nil => rfl
  | cons o os ih =>
    simp [runLoader, loadStep, ih, List.replicate_succ]

/-! ### Sample concrete inputs used by the witnesses -/

/-- The spec's example defaults: two settings. -/
def sampleDefaults : ConfigDict :=
  ((PyDict.empty : ConfigDict).insert "anonq_enabled" (.bool true)).insert
    "welcome_message" (.str "Welcome!")

/-- A shelf holding a single override record for chat 7. -/
def sampleShelf : ChatShelf :=
  (PyDict.empty : ChatShelf).insert "7"
    ((PyDict.empty : ConfigDict).insert "gsheet_url" (.str "https://example"))

/-! ### Claims -/

/-- C1: get_chat_config is total (the source catches every exception), and
whenever no override record is available for the chat — the shelf could
not be opened, or the key str(chat_id) is absent — it returns exactly the
default-settings mapping, key-for-key and value-for-value. -/
theorem get_chat_config_defaults_when_no_overrides
    (defaults : ConfigDict) (shelf : Option ChatShelf) (chat_id : Int)
    (h : shelf = Option.none ∨
      ∃ s, shelf = some s ∧ PyDict.lookup s (toString chat_id) = Option.none) :
    get_chat_config defaults shelf chat_id = defaults := by
  rcases h with h | ⟨s, hs, hnone⟩
  · subst h
    simp [get_chat_config, PyDict.update_empty]
  · subst hs
    simp [get_chat_config, hnone, PyDict.update_empty]

/-- Witness for C1 at the spec's example: chat 555, unopenable store. -/
theorem get_chat_config_defaults_when_no_overrides_witness :
    get_chat_config sampleDefaults Option.none 555 = sampleDefaults :=
  get_chat_config_defaults_when_no_overrides sampleDefaults Option.none 555
    (Or.inl rfl)

/-- C2: update_chat_config reports success, replaces the stored override
record for the chat with the given mapping verbatim (no merge with any
prior record), and a subsequent get_chat_config returns the union of the
defaults and that mapping with the mapping's values winning on every
overlapping key. -/
theorem update_chat_config_overwrite_then_get
    (defaults : ConfigDict) (shelf : ChatShelf) (chat_id : Int)
    (full : ConfigDict) :
    (update_chat_config shelf chat_id full).1 = true ∧
    PyDict.lookup (update_chat_config shelf chat_id full).2 (toString chat_id)
      = some full ∧
    get_chat_config defaults (some (update_chat_config shelf chat_id full).2)
      chat_id = PyDict.update defaults full ∧
    ∀ k, PyDict.lookup
        (get_chat_config defaults (some (update_chat_config shelf chat_id full).2)
          chat_id) k
      = match PyDict.lookup full k with
        | some v => some v
        | Option.none => PyDict.lookup defaults k := by
  have hstore :
      PyDict.lookup (update_chat_config shelf chat_id full).2 (toString chat_id)
        = some full :=
    PyDict.lookup_insert_self shelf (toString chat_id) full
  have hget :
      get_chat_config defaults (some (update_chat_config shelf chat_id full).2)
        chat_id = PyDict.update defaults full := by
    simp [get_chat_config, update_chat_config, PyDict.lookup_insert_self]
  refine ⟨rfl, hstore, hget, ?_⟩
  intro k
  rw [hget]
  have hu := PyDict.lookup_update defaults full k
  cases h : PyDict.lookup full k with
  | none => rw [h] at hu; simpa [h] using hu
  | some v => rw [h] at hu; simpa [h] using hu

/-- C3: set_chat_setting reports success and performs a read-modify-write
of the one key against the existing stored record (the empty record when
none exists): afterwards get_chat_config yields the new value under that
key, and every other key of the stored override record is unchanged. -/
theorem set_chat_setting_frame
    (defaults : ConfigDict) (shelf : ChatShelf) (chat_id : Int)
    (key : String) (value : PyVal) :
    (set_chat_setting shelf chat_id key value).1 = true ∧
    PyDict.lookup (set_chat_setting shelf chat_id key value).2 (toString chat_id)
      = some (((PyDict.lookup shelf (toString chat_id)).getD
          PyDict.empty).insert key value) ∧
    PyDict.lookup
      (get_chat_config defaults (some (set_chat_setting shelf chat_id key value).2)
        chat_id) key = some value ∧
    ∀ k, PyDict.lookup
        (((PyDict.lookup shelf (toString chat_id)).getD PyDict.empty).insert
          key value) k
      = if k = key then some value
        else PyDict.lookup
          ((PyDict.lookup shelf (toString chat_id)).getD PyDict.empty) k := by
  refine ⟨rfl, PyDict.lookup_insert_self _ _ _, ?_, ?_⟩
  · have hrec :
        PyDict.lookup (set_chat_setting shelf chat_id key value).2
          (toString chat_id)
        = some (((PyDict.lookup shelf (toString chat_id)).getD
            PyDict.empty).insert key value) :=
      PyDict.lookup_insert_self _ _ _
    simp [get_chat_config, hrec, PyDict.lookup_update,
      PyDict.lookup_insert_self]
  · intro k
    exact PyDict.lookup_insert _ _ _ _

/-- C5: delete_chat_config reports success, removes the entire override
record so a subsequent get_chat_config returns exactly the defaults, and
is idempotent: when no record is stored for the chat the shelf is left
unchanged while success is still reported. -/
theorem delete_chat_config_resets_to_defaults
    (defaults : ConfigDict) (shelf : ChatShelf) (chat_id : Int) :
    (delete_chat_config shelf chat_id).1 = true ∧
    PyDict.lookup (delete_chat_config shelf chat_id).2 (toString chat_id)
      = Option.none ∧
    get_chat_config defaults (some (delete_chat_config shelf chat_id).2) chat_id
      = defaults ∧
    (PyDict.lookup shelf (toString chat_id) = Option.none →
      (delete_chat_config shelf chat_id).2 = shelf) := by
  refine ⟨rfl, PyDict.lookup_erase_self shelf (toString chat_id), ?_, ?_⟩
  · simp [get_chat_config, delete_chat_config, PyDict.lookup_erase_self,
      PyDict.update_empty]
  · intro h
    exact PyDict.erase_of_lookup_none shelf (toString chat_id) h

/-- Witness for C5: deleting chat 9, for which sampleShelf stores
nothing, reports success, leaves the shelf unchanged, and get still
returns the defaults. -/
theorem delete_chat_config_resets_to_defaults_witness :
    PyDict.lookup sampleShelf (toString (9 : Int)) = Option.none ∧
    (delete_chat_config sampleShelf 9).1 = true ∧
    get_chat_config sampleDefaults (some (delete_chat_config sampleShelf 9).2) 9
      = sampleDefaults ∧
    (delete_chat_config sampleShelf 9).2 = sampleShelf := by
  have h : PyDict.lookup sampleShelf (toString (9 : Int)) = Option.none := by
    decide
  exact ⟨h,
    (delete_chat_config_resets_to_defaults sampleDefaults sampleShelf 9).1,
    (delete_chat_config_resets_to_defaults sampleDefaults sampleShelf 9).2.2.1,
    (delete_chat_config_resets_to_defaults sampleDefaults sampleShelf 9).2.2.2 h⟩

/-- C4 counterexample: the claim says every read-modify-write sequence
against the physical store is wrapped in the process-wide lock, but
set_user_group_link performs its whole open/read/close then
open/write/close sequence with the lock never held. -/
theorem set_user_group_link_not_lock_wrapped :
    lockWrapped setUserGroupLinkTrace = false := by
  decide

/-- C4 amended: the chat-config store's read-modify-write operations (and
its read) run under the process-wide _shelf_lock, but the user-group link
store's set and remove take no lock at all, so two overlapping link
writers can lose an update: interleaving set(1, 10) and set(2, 20) on an
initially empty store makes both save phases start from the stale empty
snapshot, and the final table lacks user 1's link, unlike the sequential
execution mutual exclusion would force. -/
theorem lock_discipline_actual :
    lockWrapped setChatSettingTrace = true ∧
    lockWrapped updateChatConfigTrace = true ∧
    lockWrapped deleteChatConfigTrace = true ∧
    lockWrapped getChatConfigTrace = true ∧
    lockWrapped removeUserGroupLinkTrace = false ∧
    (set_user_group_link PyDict.empty (.int 1) (.int 10)).2
      = linkSavePhase PyDict.empty 1 10 ∧
    PyDict.lookup unlockedInterleavedFinal 1 = Option.none ∧
    PyDict.lookup unlockedInterleavedFinal 2 = some 20 ∧
    PyDict.lookup lockedSequentialFinal 1 = some 10 ∧
    PyDict.lookup lockedSequentialFinal 2 = some 20 := by
  refine ⟨?_, ?_, ?_, ?_, ?_, rfl, ?_, ?_, ?_, ?_⟩ <;> decide

/-- C6: get_all_chat_ids enumerates exactly the top-level keys that parse
as an integer, positive or negative (an optional single leading minus
sign followed by decimal digits), in key order; in particular the
reserved user-group-link key and every other non-numeric key are skipped
during enumeration rather than raising. -/
theorem get_all_chat_ids_spec (keys : List String) :
    get_all_chat_ids keys = keys.filterMap chatKeySpecParse ∧
    chatKeySpecParse USER_GROUP_LINKS_SHELF_KEY = Option.none := by
  constructor
  · simpa [get_all_chat_ids] using get_all_go keys []
  · decide

/-- C7: the default-settings loader is memoized and total: over any
process life of calls, the file is read exactly once (on the first call),
every call returns the value the first read produced, that value stays
cached for the rest of the process, and a failed first read produces and
caches the empty mapping instead of raising. -/
theorem load_default_settings_memoized (o : ReadOutcome)
    (os : List ReadOutcome) :
    runLoader Option.none (o :: os) =
      (loaderFirstResult o :: List.replicate os.length (loaderFirstResult o),
        some (loaderFirstResult o), 1) ∧
    loaderFirstResult ReadOutcome.err = PyDict.empty := by
  refine ⟨?_, rfl⟩
  simp [runLoader, loadStep, runLoader_cached]

/-- C8: setting a link then reading it returns the group id just set, and
a second set for the same user silently replaces the first: the store
keeps at most one link per user. -/
theorem link_set_get_roundtrip (links : LinkDict) (u g g' : Int) :
    (set_user_group_link links (.int u) (.int g)).1 = true ∧
    get_group_id_for_user (set_user_group_link links (.int u) (.int g)).2
      (.int u) = some g ∧
    (set_user_group_link (set_user_group_link links (.int u) (.int g)).2
      (.int u) (.int g')).1 = true ∧
    get_group_id_for_user
      (set_user_group_link (set_user_group_link links (.int u) (.int g)).2
        (.int u) (.int g')).2 (.int u) = some g' := by
  refine ⟨rfl, ?_, rfl, ?_⟩
  · simp [get_group_id_for_user, set_user_group_link, pyToInt,
      PyDict.lookup_insert_self]
  · simp [get_group_id_for_user, set_user_group_link, pyToInt,
      PyDict.lookup_insert_self]

/-- C9: removing an absent link reports success without touching the
store, twice in a row, and the link reads back as none both times. -/
theorem link_remove_absent_idempotent (links : LinkDict) (u : Int)
    (h : PyDict.lookup links u = Option.none) :
    (remove_user_group_link links (.int u)).1 = true ∧
    (remove_user_group_link links (.int u)).2 = links ∧
    get_group_id_for_user (remove_user_group_link links (.int u)).2 (.int u)
      = Option.none ∧
    (remove_user_group_link (remove_user_group_link links (.int u)).2
      (.int u)).1 = true ∧
    get_group_id_for_user
      (remove_user_group_link (remove_user_group_link links (.int u)).2
        (.int u)).2 (.int u) = Option.none := by
  have hr : remove_user_group_link links (.int u) = (true, links) := by
    simp [remove_user_group_link, pyToInt, h]
  refine ⟨by rw [hr], by rw [hr], ?_, by rw [hr]; rw [hr], ?_⟩
  · rw [hr]
    simp [get_group_id_for_user, pyToInt, h]
  · rw [hr]
    rw [hr]
    simp [get_group_id_for_user, pyToInt, h]

/-- Witness for C9 at user 42 on the empty link table. -/
theorem link_remove_absent_idempotent_witness :
    PyDict.lookup (PyDict.empty : LinkDict) 42 = Option.none ∧
    (remove_user_group_link PyDict.empty (.int 42)).1 = true ∧
    (remove_user_group_link PyDict.empty (.int 42)).2 = PyDict.empty ∧
    get_group_id_for_user (remove_user_group_link PyDict.empty (.int 42)).2
      (.int 42) = Option.none ∧
    (remove_user_group_link (remove_user_group_link PyDict.empty (.int 42)).2
      (.int 42)).1 = true ∧
    get_group_id_for_user
      (remove_user_group_link (remove_user_group_link PyDict.empty (.int 42)).2
        (.int 42)).2 (.int 42) = Option.none := by
  have h : PyDict.lookup (PyDict.empty : LinkDict) 42 = Option.none := rfl
  have hmain := link_remove_absent_idempotent PyDict.empty 42 h
  exact ⟨h, hmain.1, hmain.2.1, hmain.2.2.1, hmain.2.2.2.1, hmain.2.2.2.2⟩

/-- C10: reading a link for a non-integer-typed user id returns none
rather than raising; the embedded get_group_id_for_user only consumes the
store, never producing a new one, reflecting that the source performs no
write on this path. -/
theorem link_get_non_integer_none (links : LinkDict) (v : PyVal)
    (h : isinstanceInt v = false) :
    get_group_id_for_user links v = Option.none := by
  cases hv : pyToInt v with
  | none => simp [get_group_id_for_user, hv]
  | some u =>
    exfalso
    rw [isinstanceInt, hv] at h
    simp at h

/-- Witness for C10 at a string-typed user id. -/
theorem link_get_non_integer_none_witness :
    isinstanceInt (.str "alice") = false ∧
    get_group_id_for_user (PyDict.empty : LinkDict) (.str "alice")
      = Option.none := by
  have h : isinstanceInt (.str "alice") = false := rfl
  exact ⟨h, link_get_non_integer_none PyDict.empty (.str "alice") h⟩
